import Mathlib

/-
  Verification development for the AUTOMATED-CLASS-SCHEDULER repository.

  The backend (src/backend.py) is embedded as pure functions over an explicit
  database state `DB`:
    - `get_free_slots`           -> `getFreeSlots`
    - `reschedule_class_for_subject` -> `rescheduleClassForSubject`
    - the upsert loop and transaction of `update_student_data` ->
      `upsertEmail` / `upsertEmails` / `upsertAll` / `txBody` / `updateStudentData`.
  SQLAlchemy staged writes are modelled by threading the `DB` value; an
  exception inside the transaction is modelled with `Except Unit`
  (`scalar_one_or_none` raises on a multi-row result); `commit` returns the
  final state and `rollback` returns the initial state.

  The ingestion client (src/email_parser_main_client.py) is embedded for its
  pure parts: `StudentTask` construction in `process_student` and the
  priority-aggregation loop of `process_all_students`.
-/

namespace ClassScheduler

/-- A weekly slot: a (day, time) pair of strings, as stored in `WeeklySlot`
and `SubjectSchedule` in src/backend.py. -/
abbrev Slot := String × String

/-- Status enum used by `RescheduledClass`, `RescheduledClassStudent` and
`StudentCompanyDrive` rows: "pending" | "done". -/
inductive PDStatus
  | pending
  | done
  deriving DecidableEq

/-- Attendance status enum: "present" | "absent". -/
inductive AStatus
  | present
  | absent
  deriving DecidableEq

/-- Drive stage enum: "OA" | "Interview". -/
inductive DriveStage
  | OA
  | Interview
  deriving DecidableEq

/-- A row of the `student_company_drive` table. The parsed drive datetime is
kept as the canonical value produced by the timestamp parser. -/
structure DriveRow where
  student_id : String
  company_name : String
  drive_stage : DriveStage
  drive_datetime : String
  status : PDStatus
  deriving DecidableEq

/-- A row of the `rescheduled_class` table. -/
structure RescheduledClassRow where
  reschedule_id : Nat
  subject_id : String
  day : String
  time : String
  status : PDStatus
  deriving DecidableEq

/-- A row of the `rescheduled_class_student` table. -/
structure RescheduledClassStudentRow where
  reschedule_id : Nat
  student_id : String
  status : PDStatus
  deriving DecidableEq

/-- A row of the `attendance` table (`schedule_id` is nullable). -/
structure AttendanceRow where
  student_id : String
  schedule_id : Option Nat
  status : AStatus
  deriving DecidableEq

/-- The database state visible to the backend: the tables of src/backend.py
that `update_student_data` reads or writes, plus the autoincrement counter
for `rescheduled_class.reschedule_id`. -/
structure DB where
  weeklySlots : List Slot
  subjects : List String
  studentSubject : List (String × String)
  subjectSchedule : List (String × Slot)
  drives : List DriveRow
  rescheduledClasses : List RescheduledClassRow
  rescheduledClassStudents : List RescheduledClassStudentRow
  attendance : List AttendanceRow
  nextRescheduleId : Nat
  deriving DecidableEq

/-- One entry of the delivered mapping (pydantic `ParsedEmail` in
src/backend.py): a company name and a raw interview timestamp string. -/
structure ParsedEmail where
  company_name : String
  interview_datetime : String
  deriving DecidableEq

/-- The slots occupied by one student: the join of `SubjectSchedule` with
`StudentSubject` on `subject_id`, filtered to the student
(src/backend.py lines 123-128). -/
def occupiedSlots (db : DB) (student_id : String) : List Slot :=
  (db.subjectSchedule.filter
    (fun r => decide ((student_id, r.1) ∈ db.studentSubject))).map (fun r => r.2)

/-- Intersection of a family of slot sets, as `set.intersection(*free_sets)`
folds binary intersection over the per-student free sets. -/
def interAll : List Slot → List (List Slot) → List Slot
  | f, [] => f
  | f, g :: gs => interAll (f.filter (fun s => decide (s ∈ g))) gs

/-- Embedding of `get_free_slots` (src/backend.py lines 107-140): fetch all
weekly slots; for each student compute free = all slots minus occupied;
with no students return all slots, otherwise intersect the free sets. -/
def getFreeSlots (db : DB) (student_ids : List String) : List Slot :=
  let allSlots := db.weeklySlots
  let freeSets := student_ids.map
    (fun sid => allSlots.filter (fun s => decide (s ∉ occupiedSlots db sid)))
  match freeSets with
  | [] => allSlots
  | f :: fs => interAll f fs

/-- Lexicographic order on (day, time) string pairs, the order Python uses to
sort tuples of strings in `sorted(free_slots)`. String comparison is stated
on the underlying character lists (codepoint order, as in Python). -/
def slotLE (a b : Slot) : Prop :=
  a.1.data < b.1.data ∨ (a.1.data = b.1.data ∧ a.2.data ≤ b.2.data)

instance : DecidableRel slotLE := fun a b => by
  unfold slotLE
  infer_instance

/-- The slot `sorted(free_slots)[0]` picks: the head of the stably sorted
list, `none` when the list is empty (src/backend.py line 167 guarded by line
162). -/
def chooseSlot (free_slots : List Slot) : Option Slot :=
  (List.insertionSort slotLE free_slots).head?

/-- Students enrolled in a subject: `select StudentSubject.student_id where
subject_id = X` (src/backend.py lines 151-155). -/
def enrolledStudents (db : DB) (subject_id : String) : List String :=
  (db.studentSubject.filter (fun p => decide (p.2 = subject_id))).map (fun p => p.1)

/-- The per-student loop of `reschedule_class_for_subject` (src/backend.py
lines 181-191): for each enrolled student add one `RescheduledClassStudent`
(pending) for the new reschedule id and one `Attendance` row (no schedule,
absent). -/
def addReschedRows (rid : Nat) : List String → DB → DB
  | [], db => db
  | sid :: rest, db =>
      addReschedRows rid rest
        { db with
          rescheduledClassStudents :=
            db.rescheduledClassStudents ++ [⟨rid, sid, PDStatus.pending⟩],
          attendance := db.attendance ++ [⟨sid, none, AStatus.absent⟩] }

/-- Embedding of `reschedule_class_for_subject` (src/backend.py lines
142-191): no-op when no student is enrolled or no common free slot exists;
otherwise create a pending `RescheduledClass` on the first slot of the sorted
free list (flush assigns the next autoincrement id) and add the per-student
rows. -/
def rescheduleClassForSubject (db : DB) (subject_id : String) : DB :=
  let students := enrolledStudents db subject_id
  if students = [] then db
  else
    let free_slots := getFreeSlots db students
    match chooseSlot free_slots with
    | none => db
    | some (day, time) =>
        let rid := db.nextRescheduleId
        let db1 := { db with
          rescheduledClasses :=
            db.rescheduledClasses ++ [⟨rid, subject_id, day, time, PDStatus.pending⟩],
          nextRescheduleId := rid + 1 }
        addReschedRows rid students db1

/-- The rows of the `student_company_drive` table matching one
(student, company, datetime) triple — the `where` clauses of the existence
query in `update_student_data` (src/backend.py lines 212-217). -/
def driveMatches (rows : List DriveRow) (sid company dt : String) : List DriveRow :=
  rows.filter (fun r =>
    decide (r.student_id = sid ∧ r.company_name = company ∧ r.drive_datetime = dt))

/-- Number of stored drive rows for one (student, company, datetime) triple. -/
def countTriple (rows : List DriveRow) (sid company dt : String) : Nat :=
  (driveMatches rows sid company dt).length

/-- Model of `scalar_one_or_none`: `none` for zero rows, the row for one, and an
exception (`MultipleResultsFound`) for more than one. -/
def scalarOneOrNone {α : Type} (rows : List α) : Except Unit (Option α) :=
  match rows with
  | [] => Except.ok none
  | [r] => Except.ok (some r)
  | _ => Except.error ()

/-- One iteration of the upsert loop of `update_student_data` (src/backend.py
lines 202-227): parse the timestamp (skip the entry on failure), query the
existing row, and insert a new pending Interview drive row when none exists.
The ISO-8601 parser is an external stdlib collaborator and is a parameter. -/
def upsertEmail (parse : String → Option String) (sid : String) (e : ParsedEmail)
    (db : DB) : Except Unit DB :=
  match parse e.interview_datetime with
  | none => Except.ok db
  | some dt =>
      match scalarOneOrNone (driveMatches db.drives sid e.company_name dt) with
      | Except.error u => Except.error u
      | Except.ok (some _) => Except.ok db
      | Except.ok none =>
          Except.ok { db with
            drives := db.drives ++
              [⟨sid, e.company_name, DriveStage.Interview, dt, PDStatus.pending⟩] }

/-- The inner loop of `update_student_data` over the delivered emails of one
student. -/
def upsertEmails (parse : String → Option String) (sid : String) :
    List ParsedEmail → DB → Except Unit DB
  | [], db => Except.ok db
  | e :: rest, db =>
      match upsertEmail parse sid e db with
      | Except.error u => Except.error u
      | Except.ok db1 => upsertEmails parse sid rest db1

/-- The outer loop of `update_student_data` over the delivered mapping
(`for student_id, emails in data.__root__.items()`). -/
def upsertAll (parse : String → Option String) :
    List (String × List ParsedEmail) → DB → Except Unit DB
  | [], db => Except.ok db
  | p :: rest, db =>
      match upsertEmails parse p.1 p.2 db with
      | Except.error u => Except.error u
      | Except.ok db1 => upsertAll parse rest db1

/-- The per-subject rescheduling loop of `update_student_data`
(src/backend.py lines 230-233). -/
def rescheduleAll : List String → DB → DB
  | [], db => db
  | subj :: rest, db => rescheduleAll rest (rescheduleClassForSubject db subj)

/-- The body of the transaction in `update_student_data`: the drive upsert
loop followed by rescheduling every subject read from the `subjects` table. -/
def txBody (parse : String → Option String) (data : List (String × List ParsedEmail))
    (db : DB) : Except Unit DB :=
  match upsertAll parse data db with
  | Except.error u => Except.error u
  | Except.ok db1 => Except.ok (rescheduleAll db1.subjects db1)

/-- Result of one delivery call: the HTTP status surfaced to the caller and
the database state after commit or rollback. -/
structure UpdateResult where
  statusCode : Nat
  db : DB
  deriving DecidableEq

/-- Embedding of the `update_student_data` endpoint (src/backend.py lines
196-241): run the transaction body; on success commit (status 200), on any
exception roll back to the initial state and raise HTTPException 500. -/
def updateStudentData (parse : String → Option String)
    (data : List (String × List ParsedEmail)) (db : DB) : UpdateResult :=
  match txBody parse data db with
  | Except.ok db1 => ⟨200, db1⟩
  | Except.error _ => ⟨500, db⟩

/-- A dictionary produced by `parse_email_ai` (src/email_parser_main_client.py):
either both fields extracted, or null fields on an AI/JSON failure. Missing
keys and JSON nulls are both `none`. -/
structure ParsedDict where
  company_name : Option String
  interview_datetime : Option String
  deriving DecidableEq

/-- Python truthiness of an optional string (`dict.get(key)` used in an
`if`): `None` and the empty string are falsy. -/
def truthy : Option String → Bool
  | none => false
  | some s => decide (s ≠ "")

/-- The task record pushed on the priority queue
(src/email_parser_main_client.py lines 135-142). -/
structure StudentTask where
  priority : Nat
  student_id : String
  parsed_emails : List ParsedDict
  deriving DecidableEq

/-- The task construction of `process_student` (src/email_parser_main_client.py
lines 147-154): the priority is `len(parsed_emails)`, the length of the full
parsed list (failed extractions included). -/
def processStudentTask (sid : String) (parsed_emails : List ParsedDict) : StudentTask :=
  ⟨parsed_emails.length, sid, parsed_emails⟩

/-- An interview object of the delivered mapping. -/
structure Interview where
  company_name : String
  interview_datetime : String
  deriving DecidableEq

/-- The filter in the drain loop of `process_all_students` (lines 174-180):
keep the parsed dictionaries whose datetime and company are both truthy. -/
def extractInterviews : List ParsedDict → List Interview
  | [] => []
  | d :: rest =>
      if truthy d.interview_datetime && truthy d.company_name then
        ⟨d.company_name.getD "", d.interview_datetime.getD ""⟩ :: extractInterviews rest
      else
        extractInterviews rest

/-- The drain loop of `process_all_students` (lines 171-183) over the tasks
in pop order (priority descending, ties unspecified): assign the filtered
interview list to the output dictionary unless it is empty. Dictionary
assignment is modelled by prepending, so that `List.lookup` sees the latest
assignment for a key. -/
def aggregateOutput : List StudentTask → List (String × List Interview) →
    List (String × List Interview)
  | [], out => out
  | t :: rest, out =>
      let interviews := extractInterviews t.parsed_emails
      if interviews = [] then aggregateOutput rest out
      else aggregateOutput rest ((t.student_id, interviews) :: out)

/-- A non-null extracted interview in the sense of the spec: both fields of
the record are non-null. -/
def isNonNullExtracted (d : ParsedDict) : Bool :=
  decide (d.company_name ≠ none) && decide (d.interview_datetime ≠ none)

/-- Number of non-null extracted interviews among the parsed emails of a student. -/
def numNonNullExtracted (l : List ParsedDict) : Nat :=
  (l.filter isNonNullExtracted).length

/-- Number of null (failed) extractions among the parsed emails of a student. -/
def numNullExtracted (l : List ParsedDict) : Nat :=
  (l.filter (fun d => !(isNonNullExtracted d))).length


/-- The empty database. -/
def db0 : DB :=
  { weeklySlots := [], subjects := [], studentSubject := [], subjectSchedule := [],
    drives := [], rescheduledClasses := [], rescheduledClassStudents := [],
    attendance := [], nextRescheduleId := 0 }

/-- The worked example of the spec: a three-slot weekly grid, students A and B
enrolled in subject S, with A also booked on (Mon,10:00) through subject SA
and B on (Tue,10:00) through subject SB. -/
def exampleDb : DB :=
  { weeklySlots := [("Mon", "10:00"), ("Mon", "11:00"), ("Tue", "10:00")],
    subjects := ["S", "SA", "SB"],
    studentSubject := [("A", "S"), ("B", "S"), ("A", "SA"), ("B", "SB")],
    subjectSchedule := [("SA", ("Mon", "10:00")), ("SB", ("Tue", "10:00"))],
    drives := [], rescheduledClasses := [], rescheduledClassStudents := [],
    attendance := [], nextRescheduleId := 0 }

/-- A timestamp parser that accepts every string, for concrete instances. -/
def parseId : String → Option String := fun s => some s

/-- The delivered mapping of the idempotence example in the spec. -/
def data0 : List (String × List ParsedEmail) :=
  [("S1", [ParsedEmail.mk "Acme" "2024-01-01T10:00:00"])]

/-- A drive row for the example triple. -/
def dupRow : DriveRow :=
  ⟨"S1", "Acme", DriveStage.Interview, "2024-01-01T10:00:00", PDStatus.pending⟩

/-- A database violating drive-row uniqueness, on which the existence query
of the upsert raises. -/
def dbDup : DB := { db0 with drives := [dupRow, dupRow] }

/-- Uniqueness invariant of the drive table (spec data-model invariant): at
most one row per (student, company, datetime) triple. -/
def DriveUnique (rows : List DriveRow) : Prop :=
  ∀ s c t, countTriple rows s c t ≤ 1

/-- A timestamp parser that rejects the literal "not-a-date" and accepts
everything else, for concrete instances. -/
def parseRej : String → Option String :=
  fun s => if s = "not-a-date" then none else some s

/-- A well-formed delivered entry. -/
def goodEmail : ParsedEmail := ⟨"Acme", "2024-01-01T10:00:00"⟩

/-- A delivered entry with a malformed timestamp. -/
def badEmail : ParsedEmail := ⟨"Beta", "not-a-date"⟩

/-- A parsed dictionary with both fields null (extraction failure). -/
def nullDict : ParsedDict := ⟨none, none⟩

/-- A task whose single parsed email extracted successfully. -/
def taskA : StudentTask :=
  processStudentTask "A" [⟨some "Acme", some "2024-01-01T10:00:00"⟩]

/-- A task whose single parsed email failed extraction. -/
def taskB : StudentTask := processStudentTask "B" [nullDict]

instance : IsTotal Slot slotLE := ⟨by
  intro a b
  rcases lt_trichotomy a.1.data b.1.data with h | h | h
  · exact Or.inl (Or.inl h)
  · rcases le_total a.2.data b.2.data with h2 | h2
    · exact Or.inl (Or.inr ⟨h, h2⟩)
    · exact Or.inr (Or.inr ⟨h.symm, h2⟩)
  · exact Or.inr (Or.inl h)⟩

instance : IsTrans Slot slotLE := ⟨by
  intro a b c hab hbc
  rcases hab with h1 | ⟨e1, l1⟩
  · rcases hbc with h2 | ⟨e2, l2⟩
    · exact Or.inl (h1.trans h2)
    · exact Or.inl (e2 ▸ h1)
  · rcases hbc with h2 | ⟨e2, l2⟩
    · exact Or.inl (e1 ▸ h2)
    · exact Or.inr ⟨e1.trans e2, l1.trans l2⟩⟩

lemma mem_interAll (s : Slot) : ∀ (gs : List (List Slot)) (f : List Slot),
    s ∈ interAll f gs ↔ s ∈ f ∧ ∀ g ∈ gs, s ∈ g := by
  intro gs
  induction gs with
  | nil => intro f; simp [interAll]
  | cons g gs ih =>
      intro f
      simp [interAll, ih, List.mem_filter, and_assoc]

lemma mem_getFreeSlots_cons (db : DB) (x : String) (xs : List String) (s : Slot) :
    s ∈ getFreeSlots db (x :: xs) ↔
      s ∈ db.weeklySlots ∧ ∀ sid ∈ x :: xs, s ∉ occupiedSlots db sid := by
  simp only [getFreeSlots, List.map_cons]
  rw [mem_interAll]
  simp [List.mem_filter, List.mem_map]
  constructor
  · rintro ⟨⟨hall, hx⟩, hrest⟩
    refine ⟨hall, hx, ?_⟩
    intro sid hsid
    exact (hrest sid hsid).2
  · rintro ⟨hall, hx, hrest⟩
    exact ⟨⟨hall, hx⟩, fun sid hsid => ⟨hall, hrest sid hsid⟩⟩

lemma chooseSlot_mem_min (l : List Slot) (m : Slot) (h : chooseSlot l = some m) :
    m ∈ l ∧ ∀ x ∈ l, slotLE m x := by
  have hperm := List.perm_insertionSort slotLE l
  have hsorted := List.sorted_insertionSort slotLE l
  unfold chooseSlot at h
  cases hs : List.insertionSort slotLE l with
  | nil => rw [hs] at h; simp at h
  | cons a t =>
      rw [hs] at h hperm hsorted
      simp at h
      subst h
      constructor
      · exact hperm.mem_iff.mp (List.mem_cons_self _ _)
      · intro x hx
        have hx2 := hperm.mem_iff.mpr hx
        rcases List.mem_cons.mp hx2 with rfl | hmem
        · rcases (inferInstance : IsTotal Slot slotLE).total x x with h | h <;> exact h
        · exact List.rel_of_sorted_cons hsorted x hmem

lemma chooseSlot_eq_none_iff (l : List Slot) : chooseSlot l = none ↔ l = [] := by
  unfold chooseSlot
  rw [List.head?_eq_none_iff]
  constructor
  · intro h
    have hperm := List.perm_insertionSort slotLE l
    rw [h] at hperm
    exact (List.perm_nil.mp hperm.symm)
  · intro h; subst h; rfl

lemma addReschedRows_spec (rid : Nat) : ∀ (students : List String) (db : DB),
    addReschedRows rid students db =
      { db with
        rescheduledClassStudents := db.rescheduledClassStudents ++
          students.map (fun sid => ⟨rid, sid, PDStatus.pending⟩),
        attendance := db.attendance ++
          students.map (fun sid => ⟨sid, none, AStatus.absent⟩) } := by
  intro students
  induction students with
  | nil => intro db; simp [addReschedRows]
  | cons sid rest ih =>
      intro db
      simp [addReschedRows, ih, List.append_assoc]

lemma reschedule_drives (db : DB) (subj : String) :
    (rescheduleClassForSubject db subj).drives = db.drives := by
  unfold rescheduleClassForSubject
  by_cases h : enrolledStudents db subj = []
  · simp [h]
  · simp only [h, if_false]
    cases hc : chooseSlot (getFreeSlots db (enrolledStudents db subj)) with
    | none => simp
    | some slot =>
        obtain ⟨d, t⟩ := slot
        simp [addReschedRows_spec]

lemma rescheduleAll_drives : ∀ (subjects : List String) (db : DB),
    (rescheduleAll subjects db).drives = db.drives := by
  intro subjects
  induction subjects with
  | nil => intro db; rfl
  | cons subj rest ih => intro db; rw [rescheduleAll, ih, reschedule_drives]

/-- Claim C10: invoked with an empty student list, the free-slot computation
returns the entire universal slot set. -/
theorem free_slots_empty_students_c10 (db : DB) : getFreeSlots db [] = db.weeklySlots := rfl

/-- Claim C4: for a subject with zero enrolled students, or whose enrolled
students have no common free slot, the scheduler performs no writes: the
database is unchanged. -/
theorem scheduler_no_writes_c4 (db : DB) (subj : String)
    (h : enrolledStudents db subj = [] ∨
      getFreeSlots db (enrolledStudents db subj) = []) :
    rescheduleClassForSubject db subj = db := by
  unfold rescheduleClassForSubject
  rcases h with h | h
  · simp [h]
  · by_cases hs : enrolledStudents db subj = []
    · simp [hs]
    · simp only [hs, if_false]
      rw [h]
      rfl

theorem scheduler_no_writes_c4_witness : rescheduleClassForSubject db0 "S" = db0 :=
  scheduler_no_writes_c4 db0 "S" (Or.inl (by decide))

/-- Claim C8: when the scheduler creates a RescheduledClass, it is pending,
and exactly the enrolled students of the subject each get one pending
RescheduledClassStudent referencing the new reschedule id and one Attendance
row with no schedule reference and status absent; nothing else changes. -/
theorem scheduler_created_rows_c8 (db : DB) (subj day time : String)
    (h1 : enrolledStudents db subj ≠ [])
    (h2 : chooseSlot (getFreeSlots db (enrolledStudents db subj)) = some (day, time)) :
    rescheduleClassForSubject db subj =
      { db with
        rescheduledClasses := db.rescheduledClasses ++
          [⟨db.nextRescheduleId, subj, day, time, PDStatus.pending⟩],
        rescheduledClassStudents := db.rescheduledClassStudents ++
          (enrolledStudents db subj).map
            (fun sid => ⟨db.nextRescheduleId, sid, PDStatus.pending⟩),
        attendance := db.attendance ++
          (enrolledStudents db subj).map (fun sid => ⟨sid, none, AStatus.absent⟩),
        nextRescheduleId := db.nextRescheduleId + 1 } := by
  unfold rescheduleClassForSubject
  simp only [h1, if_false, h2]
  rw [addReschedRows_spec]

theorem scheduler_created_rows_c8_witness :
    rescheduleClassForSubject exampleDb "S" =
      { exampleDb with
        rescheduledClasses := exampleDb.rescheduledClasses ++
          [⟨exampleDb.nextRescheduleId, "S", "Mon", "11:00", PDStatus.pending⟩],
        rescheduledClassStudents := exampleDb.rescheduledClassStudents ++
          (enrolledStudents exampleDb "S").map
            (fun sid => ⟨exampleDb.nextRescheduleId, sid, PDStatus.pending⟩),
        attendance := exampleDb.attendance ++
          (enrolledStudents exampleDb "S").map
            (fun sid => ⟨sid, none, AStatus.absent⟩),
        nextRescheduleId := exampleDb.nextRescheduleId + 1 } :=
  scheduler_created_rows_c8 exampleDb "S" "Mon" "11:00" (by decide) (by decide)

/-- Claim C3: a delivery call either commits the whole transaction (status
200) or rolls back to the initial database and surfaces a single 500
server fault; an error never leaves an incomplete commit visible. -/
theorem tx_atomicity_c3 (parse : String → Option String)
    (data : List (String × List ParsedEmail)) (db : DB) :
    ((updateStudentData parse data db).statusCode = 500 →
      (updateStudentData parse data db).db = db) ∧
    ((updateStudentData parse data db).statusCode = 200 →
      txBody parse data db = Except.ok (updateStudentData parse data db).db) ∧
    ((updateStudentData parse data db).statusCode = 200 ∨
      (updateStudentData parse data db).statusCode = 500) := by
  unfold updateStudentData
  cases h : txBody parse data db <;> simp

theorem tx_atomicity_c3_witness :
    (updateStudentData parseId data0 dbDup).statusCode = 500 ∧
    (updateStudentData parseId data0 dbDup).db = dbDup :=
  ⟨by decide, (tx_atomicity_c3 parseId data0 dbDup).1 (by decide)⟩

/-- Claim C1: for a non-empty student set the computed list of common free
slots is exactly the universal slot set minus the occupied
pairs; the chosen slot is the least element of that list in lexicographic
(day, time) order; and on the worked example of the spec the common free set is
the singleton (Mon,11:00), which is chosen and materialized. -/
theorem slot_intersection_c1 :
    (∀ (db : DB) (sids : List String) (s : Slot), sids ≠ [] →
      (s ∈ getFreeSlots db sids ↔
        s ∈ db.weeklySlots ∧ ∀ sid ∈ sids, s ∉ occupiedSlots db sid)) ∧
    (∀ (l : List Slot) (m : Slot), chooseSlot l = some m →
      m ∈ l ∧ ∀ x ∈ l, slotLE m x) ∧
    getFreeSlots exampleDb ["A", "B"] = [("Mon", "11:00")] ∧
    chooseSlot (getFreeSlots exampleDb ["A", "B"]) = some ("Mon", "11:00") ∧
    (rescheduleClassForSubject exampleDb "S").rescheduledClasses =
      [⟨0, "S", "Mon", "11:00", PDStatus.pending⟩] := by
  refine ⟨?_, chooseSlot_mem_min, by decide, by decide, by decide⟩
  intro db sids s hne
  cases sids with
  | nil => exact absurd rfl hne
  | cons x xs => exact mem_getFreeSlots_cons db x xs s

theorem slot_intersection_c1_witness :
    (("Mon", "11:00") ∈ getFreeSlots exampleDb ["A", "B"] ↔
      ("Mon", "11:00") ∈ exampleDb.weeklySlots ∧
        ∀ sid ∈ ["A", "B"], ("Mon", "11:00") ∉ occupiedSlots exampleDb sid) ∧
    (("Mon", "11:00") ∈ [(("Mon", "11:00") : Slot)] ∧
      ∀ x ∈ [(("Mon", "11:00") : Slot)], slotLE ("Mon", "11:00") x) :=
  ⟨slot_intersection_c1.1 exampleDb ["A", "B"] ("Mon", "11:00") (by decide),
   slot_intersection_c1.2.1 [("Mon", "11:00")] ("Mon", "11:00") (by decide)⟩

lemma countTriple_append (l1 l2 : List DriveRow) (s c t : String) :
    countTriple (l1 ++ l2) s c t = countTriple l1 s c t + countTriple l2 s c t := by
  simp [countTriple, driveMatches, List.filter_append]

lemma countTriple_singleton (r : DriveRow) (s c t : String) :
    countTriple [r] s c t =
      if r.student_id = s ∧ r.company_name = c ∧ r.drive_datetime = t then 1 else 0 := by
  by_cases h : r.student_id = s ∧ r.company_name = c ∧ r.drive_datetime = t <;>
    simp [countTriple, driveMatches, List.filter_cons, h]

lemma upsertEmails_cons (parse : String → Option String) (sid : String) (e : ParsedEmail)
    (rest : List ParsedEmail) (db : DB) :
    upsertEmails parse sid (e :: rest) db =
      match upsertEmail parse sid e db with
      | Except.error u => Except.error u
      | Except.ok db1 => upsertEmails parse sid rest db1 := rfl

lemma upsertAll_cons (parse : String → Option String) (p : String × List ParsedEmail)
    (rest : List (String × List ParsedEmail)) (db : DB) :
    upsertAll parse (p :: rest) db =
      match upsertEmails parse p.1 p.2 db with
      | Except.error u => Except.error u
      | Except.ok db1 => upsertAll parse rest db1 := rfl

lemma upsertEmail_ok (parse : String → Option String) (sid : String) (e : ParsedEmail)
    (db : DB) (h : DriveUnique db.drives) :
    ∃ rows,
      upsertEmail parse sid e db = Except.ok { db with drives := db.drives ++ rows } ∧
      (∀ r ∈ rows, r.drive_stage = DriveStage.Interview ∧ r.status = PDStatus.pending) ∧
      DriveUnique (db.drives ++ rows) ∧
      (∀ dt, parse e.interview_datetime = some dt →
        countTriple (db.drives ++ rows) sid e.company_name dt = 1) := by
  cases hp : parse e.interview_datetime with
  | none =>
      refine ⟨[], by simp [upsertEmail, hp], by simp,
        by rw [List.append_nil]; exact h, ?_⟩
      intro dt hdt
      exact absurd hdt (by simp)
  | some dt0 =>
      cases hm : driveMatches db.drives sid e.company_name dt0 with
      | nil =>
          have h0 : countTriple db.drives sid e.company_name dt0 = 0 := by
            unfold countTriple
            rw [hm]
            rfl
          refine ⟨[⟨sid, e.company_name, DriveStage.Interview, dt0, PDStatus.pending⟩],
            by simp [upsertEmail, hp, hm, scalarOneOrNone], by simp, ?_, ?_⟩
          · intro s c t
            rw [countTriple_append, countTriple_singleton]
            by_cases hc : sid = s ∧ e.company_name = c ∧ dt0 = t
            · obtain ⟨hs, hcn, hdtx⟩ := hc
              subst hs
              subst hcn
              subst hdtx
              simp [h0]
            · rw [if_neg (by simpa using hc)]
              simpa using h s c t
          · intro dt hdt
            have hdt2 : dt0 = dt := by injection hdt
            subst hdt2
            rw [countTriple_append, countTriple_singleton]
            simp [h0]
      | cons r rest =>
          cases rest with
          | nil =>
              have h1 : countTriple db.drives sid e.company_name dt0 = 1 := by
                unfold countTriple
                rw [hm]
                rfl
              refine ⟨[], by simp [upsertEmail, hp, hm, scalarOneOrNone], by simp,
                by rw [List.append_nil]; exact h, ?_⟩
              intro dt hdt
              have hdt2 : dt0 = dt := by injection hdt
              subst hdt2
              rw [List.append_nil]
              exact h1
          | cons r2 rest2 =>
              exfalso
              have hle := h sid e.company_name dt0
              unfold countTriple at hle
              rw [hm] at hle
              simp at hle

lemma upsertEmails_ok (parse : String → Option String) (sid : String) :
    ∀ (emails : List ParsedEmail) (db : DB), DriveUnique db.drives →
    ∃ rows,
      upsertEmails parse sid emails db = Except.ok { db with drives := db.drives ++ rows } ∧
      (∀ r ∈ rows, r.drive_stage = DriveStage.Interview ∧ r.status = PDStatus.pending) ∧
      DriveUnique (db.drives ++ rows) ∧
      (∀ e ∈ emails, ∀ dt, parse e.interview_datetime = some dt →
        countTriple (db.drives ++ rows) sid e.company_name dt = 1) := by
  intro emails
  induction emails with
  | nil =>
      intro db h
      exact ⟨[], by simp [upsertEmails], by simp, by rw [List.append_nil]; exact h, by simp⟩
  | cons e rest ih =>
      intro db h
      obtain ⟨rows1, heq1, hpend1, huniq1, hcnt1⟩ := upsertEmail_ok parse sid e db h
      obtain ⟨rows2, heq2, hpend2, huniq2, hcnt2⟩ :=
        ih { db with drives := db.drives ++ rows1 } huniq1
      have huniq2a : DriveUnique (db.drives ++ (rows1 ++ rows2)) := by
        have h2 : DriveUnique ((db.drives ++ rows1) ++ rows2) := huniq2
        rw [List.append_assoc] at h2
        exact h2
      have hstep : upsertEmails parse sid (e :: rest) db =
          upsertEmails parse sid rest { db with drives := db.drives ++ rows1 } := by
        rw [upsertEmails_cons, heq1]
      refine ⟨rows1 ++ rows2, ?_, ?_, huniq2a, ?_⟩
      · rw [hstep, heq2]
        simp [List.append_assoc]
      · intro r hr
        rcases List.mem_append.mp hr with h1 | h2
        · exact hpend1 r h1
        · exact hpend2 r h2
      · intro e2 he2 dt hdt
        rcases List.mem_cons.mp he2 with rfl | hmem
        · have h1 : countTriple (db.drives ++ rows1) sid e2.company_name dt = 1 :=
            hcnt1 dt hdt
          have hge : 1 ≤ countTriple (db.drives ++ (rows1 ++ rows2)) sid e2.company_name dt := by
            rw [← List.append_assoc, countTriple_append, h1]
            exact Nat.le_add_right 1 _
          exact Nat.le_antisymm (huniq2a sid e2.company_name dt) hge
        · have h2 : countTriple ((db.drives ++ rows1) ++ rows2) sid e2.company_name dt = 1 :=
            hcnt2 e2 hmem dt hdt
          rw [List.append_assoc] at h2
          exact h2

lemma upsertAll_ok (parse : String → Option String) :
    ∀ (data : List (String × List ParsedEmail)) (db : DB), DriveUnique db.drives →
    ∃ rows,
      upsertAll parse data db = Except.ok { db with drives := db.drives ++ rows } ∧
      (∀ r ∈ rows, r.drive_stage = DriveStage.Interview ∧ r.status = PDStatus.pending) ∧
      DriveUnique (db.drives ++ rows) ∧
      (∀ p ∈ data, ∀ e ∈ p.2, ∀ dt, parse e.interview_datetime = some dt →
        countTriple (db.drives ++ rows) p.1 e.company_name dt = 1) := by
  intro data
  induction data with
  | nil =>
      intro db h
      exact ⟨[], by simp [upsertAll], by simp, by rw [List.append_nil]; exact h, by simp⟩
  | cons p rest ih =>
      intro db h
      obtain ⟨rows1, heq1, hpend1, huniq1, hcnt1⟩ := upsertEmails_ok parse p.1 p.2 db h
      obtain ⟨rows2, heq2, hpend2, huniq2, hcnt2⟩ :=
        ih { db with drives := db.drives ++ rows1 } huniq1
      have huniq2a : DriveUnique (db.drives ++ (rows1 ++ rows2)) := by
        have h2 : DriveUnique ((db.drives ++ rows1) ++ rows2) := huniq2
        rw [List.append_assoc] at h2
        exact h2
      have hstep : upsertAll parse (p :: rest) db =
          upsertAll parse rest { db with drives := db.drives ++ rows1 } := by
        rw [upsertAll_cons, heq1]
      refine ⟨rows1 ++ rows2, ?_, ?_, huniq2a, ?_⟩
      · rw [hstep, heq2]
        simp [List.append_assoc]
      · intro r hr
        rcases List.mem_append.mp hr with h1 | h2
        · exact hpend1 r h1
        · exact hpend2 r h2
      · intro q hq e he dt hdt
        rcases List.mem_cons.mp hq with rfl | hmem
        · have h1 : countTriple (db.drives ++ rows1) q.1 e.company_name dt = 1 :=
            hcnt1 e he dt hdt
          have hge : 1 ≤ countTriple (db.drives ++ (rows1 ++ rows2)) q.1 e.company_name dt := by
            rw [← List.append_assoc, countTriple_append, h1]
            exact Nat.le_add_right 1 _
          exact Nat.le_antisymm (huniq2a q.1 e.company_name dt) hge
        · have h2 : countTriple ((db.drives ++ rows1) ++ rows2) q.1 e.company_name dt = 1 :=
            hcnt2 q hmem e he dt hdt
          rw [List.append_assoc] at h2
          exact h2

lemma updateStudentData_ok (parse : String → Option String)
    (data : List (String × List ParsedEmail)) (db : DB) (h : DriveUnique db.drives) :
    ∃ rows,
      (updateStudentData parse data db).statusCode = 200 ∧
      (updateStudentData parse data db).db.drives = db.drives ++ rows ∧
      (∀ r ∈ rows, r.drive_stage = DriveStage.Interview ∧ r.status = PDStatus.pending) ∧
      DriveUnique (db.drives ++ rows) ∧
      (∀ p ∈ data, ∀ e ∈ p.2, ∀ dt, parse e.interview_datetime = some dt →
        countTriple (db.drives ++ rows) p.1 e.company_name dt = 1) := by
  obtain ⟨rows, hAll, hpend, huniq, hcnt⟩ := upsertAll_ok parse data db h
  have hr : updateStudentData parse data db =
      ⟨200, rescheduleAll (DB.subjects { db with drives := db.drives ++ rows })
        { db with drives := db.drives ++ rows }⟩ := by
    unfold updateStudentData txBody
    rw [hAll]
  refine ⟨rows, by rw [hr], ?_, hpend, huniq, hcnt⟩
  rw [hr]
  exact rescheduleAll_drives _ _

/-- Claim C2: under the drive-uniqueness invariant, delivering a mapping twice
leaves exactly one drive row for each delivered (student, company, datetime)
triple with a parseable timestamp; both deliveries commit, and every row the
upsert inserts has stage Interview and status pending. -/
theorem drive_upsert_idempotent_c2 (parse : String → Option String)
    (data : List (String × List ParsedEmail)) (db : DB) (sid : String)
    (emails : List ParsedEmail) (e : ParsedEmail) (t : String)
    (h1 : DriveUnique db.drives) (h2 : (sid, emails) ∈ data) (h3 : e ∈ emails)
    (h4 : parse e.interview_datetime = some t) :
    (updateStudentData parse data db).statusCode = 200 ∧
    (updateStudentData parse data (updateStudentData parse data db).db).statusCode = 200 ∧
    countTriple (updateStudentData parse data
        (updateStudentData parse data db).db).db.drives sid e.company_name t = 1 ∧
    ∃ rows1 rows2,
      (updateStudentData parse data db).db.drives = db.drives ++ rows1 ∧
      (updateStudentData parse data (updateStudentData parse data db).db).db.drives =
        (db.drives ++ rows1) ++ rows2 ∧
      (∀ r ∈ rows1, r.drive_stage = DriveStage.Interview ∧ r.status = PDStatus.pending) ∧
      (∀ r ∈ rows2, r.drive_stage = DriveStage.Interview ∧ r.status = PDStatus.pending) := by
  obtain ⟨rows1, hsc1, hdr1, hpend1, huniq1, hcnt1⟩ := updateStudentData_ok parse data db h1
  have h1b : DriveUnique (updateStudentData parse data db).db.drives := by
    rw [hdr1]
    exact huniq1
  obtain ⟨rows2, hsc2, hdr2, hpend2, huniq2, hcnt2⟩ :=
    updateStudentData_ok parse data (updateStudentData parse data db).db h1b
  refine ⟨hsc1, hsc2, ?_, rows1, rows2, hdr1, by rw [hdr2, hdr1], hpend1, hpend2⟩
  rw [hdr2]
  exact hcnt2 (sid, emails) h2 e h3 t h4

theorem drive_upsert_idempotent_c2_witness :
    countTriple (updateStudentData parseId data0
      (updateStudentData parseId data0 db0).db).db.drives
      "S1" "Acme" "2024-01-01T10:00:00" = 1 :=
  (drive_upsert_idempotent_c2 parseId data0 db0 "S1"
    [ParsedEmail.mk "Acme" "2024-01-01T10:00:00"]
    (ParsedEmail.mk "Acme" "2024-01-01T10:00:00") "2024-01-01T10:00:00"
    (by intro s c t; simp [countTriple, driveMatches, db0])
    (by decide) (by decide) rfl).2.2.1

lemma upsertEmail_skip (parse : String → Option String) (sid : String) (e : ParsedEmail)
    (db : DB) (hskip : parse e.interview_datetime = none) :
    upsertEmail parse sid e db = Except.ok db := by
  simp [upsertEmail, hskip]

lemma upsertEmails_skip (parse : String → Option String) (sid : String) (e : ParsedEmail)
    (hskip : parse e.interview_datetime = none) :
    ∀ (pre post : List ParsedEmail) (db : DB),
      upsertEmails parse sid (pre ++ e :: post) db = upsertEmails parse sid (pre ++ post) db := by
  intro pre
  induction pre with
  | nil =>
      intro post db
      rw [List.nil_append, List.nil_append, upsertEmails_cons, upsertEmail_skip parse sid e db hskip]
  | cons p pre ih =>
      intro post db
      rw [List.cons_append, List.cons_append, upsertEmails_cons, upsertEmails_cons]
      cases hq : upsertEmail parse sid p db with
      | error u => rfl
      | ok db1 => exact ih post db1

lemma upsertAll_skip (parse : String → Option String) (sid : String) (e : ParsedEmail)
    (pre post : List ParsedEmail) (hskip : parse e.interview_datetime = none) :
    ∀ (dpre dpost : List (String × List ParsedEmail)) (db : DB),
      upsertAll parse (dpre ++ (sid, pre ++ e :: post) :: dpost) db =
        upsertAll parse (dpre ++ (sid, pre ++ post) :: dpost) db := by
  intro dpre
  induction dpre with
  | nil =>
      intro dpost db
      rw [List.nil_append, List.nil_append, upsertAll_cons, upsertAll_cons,
        upsertEmails_skip parse sid e hskip]
  | cons d dpre ih =>
      intro dpost db
      rw [List.cons_append, List.cons_append, upsertAll_cons, upsertAll_cons]
      cases hq : upsertEmails parse d.1 d.2 db with
      | error u => rfl
      | ok db1 => exact ih dpost db1

/-- Claim C7: an entry whose timestamp does not parse is skipped and every
sibling entry of the same delivery is still processed: the delivery behaves
exactly as if the malformed entry were absent, and in particular the batch
is not aborted by it. -/
theorem malformed_timestamp_skipped_c7 (parse : String → Option String) (sid : String)
    (e : ParsedEmail) (pre post : List ParsedEmail)
    (dpre dpost : List (String × List ParsedEmail)) (db : DB)
    (hskip : parse e.interview_datetime = none) :
    updateStudentData parse (dpre ++ (sid, pre ++ e :: post) :: dpost) db =
      updateStudentData parse (dpre ++ (sid, pre ++ post) :: dpost) db := by
  unfold updateStudentData txBody
  rw [upsertAll_skip parse sid e pre post hskip]

theorem malformed_timestamp_skipped_c7_witness :
    updateStudentData parseRej ([] ++ ("S1", [goodEmail] ++ badEmail :: []) :: []) db0 =
      updateStudentData parseRej ([] ++ ("S1", [goodEmail] ++ []) :: []) db0 :=
  malformed_timestamp_skipped_c7 parseRej "S1" badEmail [goodEmail] [] [] [] db0 (by decide)

lemma lookup_cons_ne {β : Type} (k k2 : String) (v : β) (out : List (String × β))
    (h : k ≠ k2) : List.lookup k ((k2, v) :: out) = List.lookup k out := by
  simp [List.lookup, beq_eq_false_iff_ne.mpr h]

lemma lookup_cons_self {β : Type} (k : String) (v : β) (out : List (String × β)) :
    List.lookup k ((k, v) :: out) = some v := by
  simp [List.lookup]

lemma lookup_aggregateOutput_notmem :
    ∀ (ts : List StudentTask) (out : List (String × List Interview)) (sid : String),
      sid ∉ ts.map StudentTask.student_id →
      List.lookup sid (aggregateOutput ts out) = List.lookup sid out := by
  intro ts
  induction ts with
  | nil => intro out sid _; rfl
  | cons t rest ih =>
      intro out sid hsid
      rw [List.map_cons, List.mem_cons] at hsid
      push_neg at hsid
      obtain ⟨hne, hnotin⟩ := hsid
      unfold aggregateOutput
      by_cases hiv : extractInterviews t.parsed_emails = []
      · rw [if_pos hiv]
        exact ih out sid hnotin
      · rw [if_neg hiv]
        rw [ih _ sid hnotin, lookup_cons_ne sid t.student_id _ out hne]

lemma lookup_aggregateOutput_mem :
    ∀ (ts : List StudentTask) (out : List (String × List Interview)) (t : StudentTask),
      t ∈ ts → (ts.map StudentTask.student_id).Nodup →
      List.lookup t.student_id (aggregateOutput ts out) =
        if extractInterviews t.parsed_emails = [] then List.lookup t.student_id out
        else some (extractInterviews t.parsed_emails) := by
  intro ts
  induction ts with
  | nil => intro out t ht _; exact absurd ht (List.not_mem_nil t)
  | cons t0 rest ih =>
      intro out t ht hnodup
      rw [List.map_cons, List.nodup_cons] at hnodup
      obtain ⟨hnotin, hnodup2⟩ := hnodup
      rcases List.mem_cons.mp ht with rfl | hmem
      · unfold aggregateOutput
        by_cases hiv : extractInterviews t.parsed_emails = []
        · rw [if_pos hiv, if_pos hiv]
          exact lookup_aggregateOutput_notmem rest out t.student_id hnotin
        · rw [if_neg hiv, if_neg hiv]
          rw [lookup_aggregateOutput_notmem rest _ t.student_id hnotin,
            lookup_cons_self]
      · have hne : t0.student_id ≠ t.student_id := by
          intro hcontra
          exact hnotin (hcontra ▸ List.mem_map_of_mem StudentTask.student_id hmem)
        unfold aggregateOutput
        by_cases hiv : extractInterviews t0.parsed_emails = []
        · rw [if_pos hiv]
          exact ih out t hmem hnodup2
        · rw [if_neg hiv]
          rw [ih _ t hmem hnodup2]
          by_cases hiv2 : extractInterviews t.parsed_emails = []
          · rw [if_pos hiv2, if_pos hiv2, lookup_cons_ne _ _ _ _ (Ne.symm hne)]
          · rw [if_neg hiv2, if_neg hiv2]

/-- Claim C5: for task records with pairwise distinct student ids (one record
per student), the aggregated output maps each student whose filtered
interview list is non-empty to exactly that list, omits every student whose
filtered list is empty, and contains no key for students without a record. -/
theorem aggregator_output_c5 (tasks : List StudentTask)
    (h : (tasks.map StudentTask.student_id).Nodup) :
    (∀ t ∈ tasks,
      (extractInterviews t.parsed_emails = [] →
        List.lookup t.student_id (aggregateOutput tasks []) = none) ∧
      (extractInterviews t.parsed_emails ≠ [] →
        List.lookup t.student_id (aggregateOutput tasks []) =
          some (extractInterviews t.parsed_emails))) ∧
    (∀ sid, sid ∉ tasks.map StudentTask.student_id →
      List.lookup sid (aggregateOutput tasks []) = none) := by
  constructor
  · intro t ht
    have hkey := lookup_aggregateOutput_mem tasks [] t ht h
    constructor
    · intro hiv
      rw [hkey, if_pos hiv]
      rfl
    · intro hiv
      rw [hkey, if_neg hiv]
  · intro sid hsid
    rw [lookup_aggregateOutput_notmem tasks [] sid hsid]
    rfl

theorem aggregator_output_c5_witness :
    List.lookup "A" (aggregateOutput [taskA, taskB] []) =
      some (extractInterviews taskA.parsed_emails) ∧
    List.lookup "B" (aggregateOutput [taskA, taskB] []) = none :=
  ⟨((aggregator_output_c5 [taskA, taskB] (by decide)).1 taskA (by decide)).2 (by decide),
   ((aggregator_output_c5 [taskA, taskB] (by decide)).1 taskB (by decide)).1 (by decide)⟩

/-- Claim C6 as stated is false on the code: `process_student` sets the task
priority to the length of the full parsed list, which counts failed (null)
extractions too. A single email whose extraction failed gives priority 1
while the number of non-null extracted interviews is 0. -/
theorem priority_counts_c6_counterexample :
    ¬ ((processStudentTask "S1" [nullDict]).priority = numNonNullExtracted [nullDict]) := by
  decide

/-- Claim C6, amended: the task priority equals the total number of extracted
interview records among the parsed emails of the student — the non-null extracted
interviews plus the null (failed) extractions. -/
theorem priority_counts_c6_amended (sid : String) (l : List ParsedDict) :
    (processStudentTask sid l).priority = numNonNullExtracted l + numNullExtracted l := by
  show l.length = _
  unfold numNonNullExtracted numNullExtracted
  exact @List.length_eq_length_filter_add _ l isNonNullExtracted

end ClassScheduler
